import Mathlib

/-!
Shallow embedding of `src/Day_1_AI_Refactored_RiskAnalyzer.py`: the
`RiskAnalyzer` class, its constructor validation, and its four methods
`calculate_volatility`, `split_period`, `compare_period_volatility` and
`get_summary_statistics`.  Python floats are modelled as real numbers for
the numeric methods; the constructor's `isinstance` validation is modelled
on a small inductive type of Python runtime values, where a float may also
be one of the non-finite values NaN, +inf, -inf.  A Python `raise` is
modelled by returning `Except.error`; the error constructors follow the
spec's taxonomy, each attached to the raise site of the code it models.
-/

namespace RiskAnalyzer

/-- Errors of the spec's taxonomy.  `invalidInputError` models the
`ValueError` raised by `__init__`; `emptySequenceError` models the Python
`ZeroDivisionError` raised by `sum(returns) / n` when `n = 0` in
`calculate_volatility`; `divisionByZeroError` models the Python
`ZeroDivisionError` raised by `(vol_change / vol_first)` when
`vol_first = 0` in `compare_period_volatility`. -/
inductive PyErr where
  | invalidInputError (msg : String)
  | emptySequenceError
  | divisionByZeroError
deriving DecidableEq, Repr

/-- A Python float value: a finite real (modelled by a rational literal) or
one of the non-finite IEEE values. -/
inductive PyFloat where
  | finite (x : ℚ)
  | nan
  | inf
  | negInf
deriving DecidableEq, Repr

/-- A Python runtime value, as far as the constructor's
`isinstance(x, (int, float))` check can distinguish them. -/
inductive PyVal where
  | intVal (n : ℤ)
  | boolVal (b : Bool)
  | floatVal (f : PyFloat)
  | strVal (s : String)
  | noneVal
deriving DecidableEq, Repr

/-- `isinstance(x, (int, float))` in Python: true for ints, floats
(including NaN and the infinities) and bools (`bool` is a subclass of
`int`). -/
def isNumericType : PyVal → Bool
  | .intVal _ => true
  | .boolVal _ => true
  | .floatVal _ => true
  | _ => false

/-- Whether a Python value denotes a (finite) real number: ints, bools
(which equal the reals 0 and 1), and finite floats do; NaN, the
infinities, strings and `None` do not. -/
def isRealNumber : PyVal → Bool
  | .intVal _ => true
  | .boolVal _ => true
  | .floatVal (.finite _) => true
  | _ => false

/-- `RiskAnalyzer.__init__`: rejects an empty tuple, then rejects any
element failing `isinstance(x, (int, float))`, else stores the tuple
verbatim as `self.daily_returns` (returned here as the constructed
state). -/
def init (daily_returns : List PyVal) : Except PyErr (List PyVal) :=
  if daily_returns.isEmpty then
    .error (.invalidInputError "Daily returns cannot be empty")
  else if !(daily_returns.all isNumericType) then
    .error (.invalidInputError "All returns must be numeric values")
  else
    .ok daily_returns

/-- `RiskAnalyzer.calculate_volatility`: `self` is the stored
`daily_returns`; `returns?` models the optional `returns` parameter
(`none` = Python `None`, in which case the stored series is used).
`mean = sum(returns) / n` raises ZeroDivisionError in Python when `n = 0`,
modelled by the `emptySequenceError` branch; otherwise the population
standard deviation is computed exactly as in the source. -/
noncomputable def calculate_volatility (self : List ℝ) (returns? : Option (List ℝ)) :
    Except PyErr ℝ :=
  let returns : List ℝ := returns?.getD self
  let n : ℕ := returns.length
  if n = 0 then
    .error .emptySequenceError
  else
    let mean : ℝ := returns.sum / (n : ℝ)
    let squared_diff : List ℝ := returns.map (fun x => (x - mean) ^ 2)
    let variance : ℝ := squared_diff.sum / (n : ℝ)
    .ok (Real.sqrt variance)

/-- `RiskAnalyzer.split_period`: `midpoint = len(self.daily_returns) // 2`;
`first_half = daily_returns[:midpoint]`, `second_half =
daily_returns[midpoint:]`. -/
def split_period (self : List ℝ) : List ℝ × List ℝ :=
  let midpoint : ℕ := self.length / 2
  (self.take midpoint, self.drop midpoint)

/-- The dictionary returned by `compare_period_volatility`. -/
structure PeriodComparison where
  first_period_volatility : ℝ
  second_period_volatility : ℝ
  volatility_change : ℝ
  volatility_change_percent : ℝ

/-- `RiskAnalyzer.compare_period_volatility`: splits, computes both halves'
volatilities (each of which may raise, propagated in order), then
`vol_change_pct = (vol_change / vol_first) * 100`, whose float division
raises ZeroDivisionError in Python when `vol_first = 0`, modelled by the
`divisionByZeroError` branch. -/
noncomputable def compare_period_volatility (self : List ℝ) :
    Except PyErr PeriodComparison :=
  let halves := split_period self
  match calculate_volatility self (some halves.1) with
  | .error e => .error e
  | .ok vol_first =>
    match calculate_volatility self (some halves.2) with
    | .error e => .error e
    | .ok vol_second =>
      let vol_change := vol_second - vol_first
      if vol_first = 0 then
        .error .divisionByZeroError
      else
        .ok { first_period_volatility := vol_first
              second_period_volatility := vol_second
              volatility_change := vol_change
              volatility_change_percent := vol_change / vol_first * 100 }

/-- The dictionary returned by `get_summary_statistics` (its `count` entry
is the Python `int` `len(self.daily_returns)`). -/
structure SummaryStatistics where
  mean : ℝ
  volatility : ℝ
  min : ℝ
  max : ℝ
  count : ℕ

/-- `RiskAnalyzer.get_summary_statistics`: `mean = sum / len` (whose
division would raise on an empty series, modelled by the error branch),
`volatility = calculate_volatility()` on the stored series, Python
`min`/`max` of a non-empty tuple modelled as folds of binary min/max over
the tail starting from the head, and `count = len`. -/
noncomputable def get_summary_statistics (self : List ℝ) :
    Except PyErr SummaryStatistics :=
  match self with
  | [] => .error .emptySequenceError
  | x :: xs =>
    match calculate_volatility (x :: xs) none with
    | .error e => .error e
    | .ok vol =>
      .ok { mean := (x :: xs).sum / ((x :: xs).length : ℝ)
            volatility := vol
            min := xs.foldl min x
            max := xs.foldl max x
            count := (x :: xs).length }

/-- The population standard deviation exactly as the spec words it:
`mean = sum(x)/n`; `variance = sum((x-mean)^2)/n`; the result is
`sqrt(variance)`, with divisor `n`, not `n-1`. -/
noncomputable def specPopulationStdDev (xs : List ℝ) : ℝ :=
  let n : ℝ := (xs.length : ℝ)
  let mean : ℝ := xs.sum / n
  let variance : ℝ := (xs.map (fun x => (x - mean) ^ 2)).sum / n
  Real.sqrt variance

/-! ### Helper lemmas -/

lemma vol_some_eq (self rs : List ℝ) (h : rs ≠ []) :
    calculate_volatility self (some rs) =
      Except.ok (Real.sqrt
        ((rs.map (fun x => (x - rs.sum / (rs.length : ℝ)) ^ 2)).sum / (rs.length : ℝ))) := by
  have hlen : rs.length ≠ 0 := by simpa using h
  simp [calculate_volatility, hlen]

lemma vol_none_eq_vol_some (self : List ℝ) :
    calculate_volatility self none = calculate_volatility self (some self) := rfl

lemma vol_empty (self : List ℝ) :
    calculate_volatility self (some []) = .error .emptySequenceError := by
  simp [calculate_volatility]

lemma list_sum_const (l : List ℝ) (c : ℝ) (h : ∀ x ∈ l, x = c) :
    l.sum = (l.length : ℝ) * c := by
  induction l with
  | nil => simp
  | cons a t ih =>
    have ha : a = c := h a (by simp)
    have ht : ∀ x ∈ t, x = c := fun x hx => h x (by simp [hx])
    rw [List.sum_cons, ha, ih ht, List.length_cons]
    push_cast
    ring

lemma mean_of_const (rs : List ℝ) (c : ℝ) (h : rs ≠ []) (hc : ∀ x ∈ rs, x = c) :
    rs.sum / (rs.length : ℝ) = c := by
  have hlen : rs.length ≠ 0 := by simpa using h
  have hn : (rs.length : ℝ) ≠ 0 := Nat.cast_ne_zero.mpr hlen
  rw [list_sum_const rs c hc]
  exact mul_div_cancel_left₀ c hn

lemma sum_nonneg_eq_zero_iff (l : List ℝ) (h : ∀ x ∈ l, 0 ≤ x) :
    l.sum = 0 ↔ ∀ x ∈ l, x = 0 := by
  induction l with
  | nil => simp
  | cons a t ih =>
    have ha : 0 ≤ a := h a (by simp)
    have ht : ∀ x ∈ t, 0 ≤ x := fun x hx => h x (by simp [hx])
    have hts : 0 ≤ t.sum := List.sum_nonneg ht
    rw [List.sum_cons]
    constructor
    · intro h0
      have ha0 : a = 0 := le_antisymm (by linarith) ha
      have hts0 : t.sum = 0 := by linarith
      intro x hx
      rcases List.mem_cons.mp hx with rfl | hx2
      · exact ha0
      · exact (ih ht).mp hts0 x hx2
    · intro hall
      have h1 : t.sum = 0 := (ih ht).mpr (fun x hx => hall x (List.mem_cons.mpr (Or.inr hx)))
      rw [h1, hall a (by simp), add_zero]

lemma sumSq_nonneg (rs : List ℝ) (m : ℝ) :
    0 ≤ (rs.map (fun x => (x - m) ^ 2)).sum := by
  apply List.sum_nonneg
  intro y hy
  obtain ⟨x, _, rfl⟩ := List.mem_map.mp hy
  positivity

lemma sumSq_eq_zero_iff (rs : List ℝ) (m : ℝ) :
    (rs.map (fun x => (x - m) ^ 2)).sum = 0 ↔ ∀ x ∈ rs, x = m := by
  rw [sum_nonneg_eq_zero_iff]
  · constructor
    · intro hz x hx
      have h2 : (x - m) ^ 2 = 0 := hz _ (List.mem_map.mpr ⟨x, hx, rfl⟩)
      have h3 : x - m = 0 := pow_eq_zero_iff two_ne_zero |>.mp h2
      exact sub_eq_zero.mp h3
    · intro hall y hy
      obtain ⟨x, hx, rfl⟩ := List.mem_map.mp hy
      rw [hall x hx]
      ring
  · intro y hy
    obtain ⟨x, _, rfl⟩ := List.mem_map.mp hy
    positivity

lemma eq_mean_iff_all_eq (rs : List ℝ) (h : rs ≠ []) :
    (∀ x ∈ rs, x = rs.sum / (rs.length : ℝ)) ↔ (∀ x ∈ rs, ∀ y ∈ rs, x = y) := by
  constructor
  · intro hm x hx y hy
    rw [hm x hx, hm y hy]
  · intro hxy x hx
    obtain ⟨c, hc⟩ := List.exists_mem_of_ne_nil rs h
    have hall : ∀ z ∈ rs, z = c := fun z hz => hxy z hz c hc
    rw [hall x hx, mean_of_const rs c h hall]

lemma vol_ok_characterization (self rs : List ℝ) (h : rs ≠ []) :
    ∃ v, calculate_volatility self (some rs) = .ok v ∧ 0 ≤ v ∧
      (v = 0 ↔ ∀ x ∈ rs, ∀ y ∈ rs, x = y) := by
  refine ⟨_, vol_some_eq self rs h, Real.sqrt_nonneg _, ?_⟩
  have hlen : rs.length ≠ 0 := by simpa using h
  have hn : (0:ℝ) < (rs.length : ℝ) := Nat.cast_pos.mpr (Nat.pos_of_ne_zero hlen)
  have hS0 : 0 ≤ (rs.map (fun x => (x - rs.sum / (rs.length : ℝ)) ^ 2)).sum :=
    sumSq_nonneg rs _
  rw [Real.sqrt_eq_zero']
  constructor
  · intro hle
    have hdiv0 : (rs.map (fun x => (x - rs.sum / (rs.length : ℝ)) ^ 2)).sum /
        (rs.length : ℝ) = 0 := le_antisymm hle (by positivity)
    rcases div_eq_zero_iff.mp hdiv0 with h0 | h0
    · exact (eq_mean_iff_all_eq rs h).mp ((sumSq_eq_zero_iff rs _).mp h0)
    · exact absurd h0 (ne_of_gt hn)
  · intro hall
    have h0 : (rs.map (fun x => (x - rs.sum / (rs.length : ℝ)) ^ 2)).sum = 0 :=
      (sumSq_eq_zero_iff rs _).mpr ((eq_mean_iff_all_eq rs h).mpr hall)
    rw [h0, zero_div]

lemma vol_const_zero (self rs : List ℝ) (h : rs ≠ []) (hc : ∀ x ∈ rs, ∀ y ∈ rs, x = y) :
    calculate_volatility self (some rs) = .ok 0 := by
  obtain ⟨v, hv, _, hiff⟩ := vol_ok_characterization self rs h
  rw [hv, hiff.mpr hc]

lemma foldl_min_spec (xs : List ℝ) :
    ∀ a : ℝ, xs.foldl min a ∈ a :: xs ∧ ∀ x ∈ a :: xs, xs.foldl min a ≤ x := by
  induction xs with
  | nil => intro a; simp
  | cons b t ih =>
    intro a
    obtain ⟨hmem, hle⟩ := ih (min a b)
    constructor
    · simp only [List.foldl_cons]
      rcases List.mem_cons.mp hmem with hm | hm
      · rw [hm]
        rcases min_choice a b with h | h <;> rw [h] <;> simp
      · simp [hm]
    · intro x hx
      simp only [List.foldl_cons]
      rcases List.mem_cons.mp hx with hxa | hx2
      · rw [hxa]
        exact le_trans (hle _ (List.mem_cons_self _ _)) (min_le_left a b)
      · rcases List.mem_cons.mp hx2 with hxb | hx3
        · rw [hxb]
          exact le_trans (hle _ (List.mem_cons_self _ _)) (min_le_right a b)
        · exact hle _ (List.mem_cons.mpr (Or.inr hx3))

lemma foldl_max_spec (xs : List ℝ) :
    ∀ a : ℝ, xs.foldl max a ∈ a :: xs ∧ ∀ x ∈ a :: xs, x ≤ xs.foldl max a := by
  induction xs with
  | nil => intro a; simp
  | cons b t ih =>
    intro a
    obtain ⟨hmem, hle⟩ := ih (max a b)
    constructor
    · simp only [List.foldl_cons]
      rcases List.mem_cons.mp hmem with hm | hm
      · rw [hm]
        rcases max_choice a b with h | h <;> rw [h] <;> simp
      · simp [hm]
    · intro x hx
      simp only [List.foldl_cons]
      rcases List.mem_cons.mp hx with hxa | hx2
      · rw [hxa]
        exact le_trans (le_max_left a b) (hle _ (List.mem_cons_self _ _))
      · rcases List.mem_cons.mp hx2 with hxb | hx3
        · rw [hxb]
          exact le_trans (le_max_right a b) (hle _ (List.mem_cons_self _ _))
        · exact hle _ (List.mem_cons.mpr (Or.inr hx3))

lemma init_ok_of_valid (ds : List PyVal) (hne : ds ≠ [])
    (hall : ∀ x ∈ ds, isNumericType x = true) :
    init ds = Except.ok ds := by
  unfold init
  have hemp : ds.isEmpty = false := by simpa [List.isEmpty_iff] using hne
  have hall2 : ds.all isNumericType = true := List.all_eq_true.mpr hall
  simp [hemp, hall2]

lemma init_error_iff (ds : List PyVal) :
    (∃ msg, init ds = Except.error (PyErr.invalidInputError msg)) ↔
      (ds = [] ∨ ∃ x ∈ ds, isNumericType x = false) := by
  by_cases hne : ds = []
  · subst hne
    simp only [init, List.isEmpty_nil, if_true, eq_self_iff_true, true_or, iff_true]
    exact ⟨"Daily returns cannot be empty", rfl⟩
  · have hemp : ds.isEmpty = false := by simpa [List.isEmpty_iff] using hne
    by_cases hall : ∀ x ∈ ds, isNumericType x = true
    · rw [init_ok_of_valid ds hne hall]
      simp only [hne, false_or]
      constructor
      · rintro ⟨msg, he⟩
        simp at he
      · rintro ⟨x, hx, hfx⟩
        rw [hall x hx] at hfx
        simp at hfx
    · have hallb : ds.all isNumericType = false := by
        rw [Bool.eq_false_iff]
        intro hc
        exact hall (List.all_eq_true.mp hc)
      push_neg at hall
      obtain ⟨x, hx, hfx⟩ := hall
      have hinit : init ds =
          Except.error (PyErr.invalidInputError "All returns must be numeric values") := by
        simp [init, hemp, hallb]
      rw [hinit]
      simp only [hne, false_or]
      constructor
      · intro _
        exact ⟨x, hx, by simpa using hfx⟩
      · intro _
        exact ⟨_, rfl⟩

lemma init_ok_eq (ds l : List PyVal) (h : init ds = Except.ok l) : l = ds := by
  unfold init at h
  by_cases hemp : ds.isEmpty <;> by_cases hall : ds.all isNumericType <;>
    simp [hemp, hall] at h
  exact h.symm

lemma split_period_fst_len (self : List ℝ) :
    (split_period self).1.length = self.length / 2 := by
  simp only [split_period, List.length_take]
  omega

lemma split_period_snd_len (self : List ℝ) :
    (split_period self).2.length = self.length - self.length / 2 := by
  simp only [split_period, List.length_drop]

lemma compare_eq_of_err1 (self : List ℝ) (e : PyErr)
    (h1 : calculate_volatility self (some (split_period self).1) = .error e) :
    compare_period_volatility self = .error e := by
  simp only [compare_period_volatility]
  rw [h1]

lemma compare_eq_of_err2 (self : List ℝ) (v1 : ℝ) (e : PyErr)
    (h1 : calculate_volatility self (some (split_period self).1) = .ok v1)
    (h2 : calculate_volatility self (some (split_period self).2) = .error e) :
    compare_period_volatility self = .error e := by
  simp only [compare_period_volatility]
  rw [h1, h2]

lemma compare_eq_of_oks (self : List ℝ) (v1 v2 : ℝ)
    (h1 : calculate_volatility self (some (split_period self).1) = .ok v1)
    (h2 : calculate_volatility self (some (split_period self).2) = .ok v2) :
    compare_period_volatility self =
      if v1 = 0 then .error .divisionByZeroError
      else .ok ⟨v1, v2, v2 - v1, (v2 - v1) / v1 * 100⟩ := by
  simp only [compare_period_volatility]
  rw [h1, h2]

lemma summary_eq_of_ok (x : ℝ) (xs : List ℝ) (v : ℝ)
    (hv : calculate_volatility (x :: xs) none = .ok v) :
    get_summary_statistics (x :: xs) =
      .ok ⟨(x :: xs).sum / ((x :: xs).length : ℝ), v, xs.foldl min x, xs.foldl max x,
        (x :: xs).length⟩ := by
  simp only [get_summary_statistics]
  rw [hv]

/-! ### Claim theorems -/

/-- Claim C1: for every non-empty sequence of real numbers,
`calculate_volatility` returns the population standard deviation: with `n`
the length, `mean = sum(x)/n`, `variance = sum((x-mean)^2)/n`, and the
result equals `sqrt(variance)`, using divisor `n` rather than `n-1`. -/
theorem calculate_volatility_is_population_std_dev (self rs : List ℝ) (h : rs ≠ []) :
    calculate_volatility self (some rs) = .ok (specPopulationStdDev rs) := by
  rw [vol_some_eq self rs h]
  rfl

theorem calculate_volatility_is_population_std_dev_witness :
    (([1, 3] : List ℝ) ≠ []) ∧
      calculate_volatility [1, 3] (some [1, 3]) = .ok (specPopulationStdDev [1, 3]) :=
  ⟨by simp, calculate_volatility_is_population_std_dev [1, 3] [1, 3] (by simp)⟩

/-- Claim C2: for every stored series of length `n`, `split_period` returns
a first half of length `n / 2` (floor) and a second half of length
`n - n / 2`, their concatenation is the original series element for
element in order, and for odd `n` the extra middle element goes to the
second half. -/
theorem split_period_spec (self : List ℝ) :
    (split_period self).1.length = self.length / 2 ∧
    (split_period self).2.length = self.length - self.length / 2 ∧
    (split_period self).1 ++ (split_period self).2 = self ∧
    (self.length % 2 = 1 →
      (split_period self).2.length = (split_period self).1.length + 1) := by
  refine ⟨split_period_fst_len self, split_period_snd_len self, ?_, ?_⟩
  · simp [split_period, List.take_append_drop]
  · intro hodd
    rw [split_period_fst_len self, split_period_snd_len self]
    omega

theorem split_period_spec_witness :
    (split_period ([1, 2, 3] : List ℝ)).1.length = ([1, 2, 3] : List ℝ).length / 2 ∧
    (split_period ([1, 2, 3] : List ℝ)).2.length =
      ([1, 2, 3] : List ℝ).length - ([1, 2, 3] : List ℝ).length / 2 ∧
    (split_period ([1, 2, 3] : List ℝ)).1 ++ (split_period ([1, 2, 3] : List ℝ)).2 =
      ([1, 2, 3] : List ℝ) ∧
    (([1, 2, 3] : List ℝ).length % 2 = 1 →
      (split_period ([1, 2, 3] : List ℝ)).2.length =
        (split_period ([1, 2, 3] : List ℝ)).1.length + 1) :=
  split_period_spec [1, 2, 3]

/-- Claim C5: `calculate_volatility` fails with `emptySequenceError`
whenever the sequence it operates on (the explicitly supplied one, or the
stored series when none is supplied) has length 0, rather than returning a
value. -/
theorem calculate_volatility_empty_error (self : List ℝ) (returns? : Option (List ℝ))
    (h : (returns?.getD self).length = 0) :
    calculate_volatility self returns? = .error .emptySequenceError := by
  simp [calculate_volatility, h]

theorem calculate_volatility_empty_error_witness :
    ((some ([] : List ℝ)).getD [1]).length = 0 ∧
      calculate_volatility [1] (some []) = .error .emptySequenceError :=
  ⟨by simp, calculate_volatility_empty_error [1] (some []) (by simp)⟩

/-- Claim C7: for every stored series of length ≤ 1 the first half produced
by `split_period` is empty, and `compare_period_volatility` fails with
`emptySequenceError` propagated from `calculate_volatility` applied to that
empty first half. -/
theorem compare_period_volatility_short_series_empty_error (self : List ℝ)
    (h : self.length ≤ 1) :
    compare_period_volatility self = .error .emptySequenceError := by
  have hmid : self.length / 2 = 0 := by omega
  have hfh : (split_period self).1 = [] := by
    have := split_period_fst_len self
    rw [hmid] at this
    exact List.length_eq_zero.mp this
  apply compare_eq_of_err1
  rw [hfh]
  exact vol_empty self

theorem compare_period_volatility_short_series_empty_error_witness :
    ([(7 : ℝ)].length ≤ 1) ∧
      compare_period_volatility [(7 : ℝ)] = .error .emptySequenceError :=
  ⟨by simp, compare_period_volatility_short_series_empty_error [(7 : ℝ)] (by simp)⟩

/-- Claim C8: for every non-empty sequence of real numbers, the volatility
returned by `calculate_volatility` is nonnegative, and it is zero exactly
when all elements of the sequence are equal. -/
theorem calculate_volatility_nonneg_and_zero_iff (self rs : List ℝ) (h : rs ≠ []) :
    ∃ v, calculate_volatility self (some rs) = .ok v ∧ 0 ≤ v ∧
      (v = 0 ↔ ∀ x ∈ rs, ∀ y ∈ rs, x = y) :=
  vol_ok_characterization self rs h

theorem calculate_volatility_nonneg_and_zero_iff_witness :
    (([2, 2] : List ℝ) ≠ []) ∧
      ∃ v, calculate_volatility [5] (some [2, 2]) = .ok v ∧ 0 ≤ v ∧
        (v = 0 ↔ ∀ x ∈ ([2, 2] : List ℝ), ∀ y ∈ ([2, 2] : List ℝ), x = y) :=
  ⟨by simp, calculate_volatility_nonneg_and_zero_iff [5] [2, 2] (by simp)⟩

/-- Claim C3: for every stored series whose first half (per `split_period`)
is non-empty with all elements identical, the first-half volatility is 0
and `compare_period_volatility` fails with `divisionByZeroError` (the
Python float division raising ZeroDivisionError) rather than returning a
value. -/
theorem compare_period_volatility_constant_first_half (self : List ℝ)
    (hne : (split_period self).1 ≠ [])
    (hconst : ∀ x ∈ (split_period self).1, ∀ y ∈ (split_period self).1, x = y) :
    compare_period_volatility self = .error .divisionByZeroError := by
  have h1 : calculate_volatility self (some (split_period self).1) = .ok 0 :=
    vol_const_zero self _ hne hconst
  have hfl : (split_period self).1.length ≠ 0 := fun hc => hne (List.length_eq_zero.mp hc)
  rw [split_period_fst_len self] at hfl
  have hsh : (split_period self).2 ≠ [] := by
    intro hc
    have h2 := split_period_snd_len self
    rw [hc] at h2
    simp only [List.length_nil] at h2
    omega
  obtain ⟨v2, hv2, _, _⟩ := vol_ok_characterization self _ hsh
  rw [compare_eq_of_oks self 0 v2 h1 hv2]
  simp

theorem compare_period_volatility_constant_first_half_witness :
    ((split_period ([5, 5, 5, 5, 1, 9, 3, 7] : List ℝ)).1 ≠ []) ∧
    (∀ x ∈ (split_period ([5, 5, 5, 5, 1, 9, 3, 7] : List ℝ)).1,
      ∀ y ∈ (split_period ([5, 5, 5, 5, 1, 9, 3, 7] : List ℝ)).1, x = y) ∧
    compare_period_volatility ([5, 5, 5, 5, 1, 9, 3, 7] : List ℝ) =
      .error .divisionByZeroError := by
  have hs : split_period ([5, 5, 5, 5, 1, 9, 3, 7] : List ℝ) =
      ([5, 5, 5, 5], [1, 9, 3, 7]) := rfl
  have hne : (split_period ([5, 5, 5, 5, 1, 9, 3, 7] : List ℝ)).1 ≠ [] := by
    rw [hs]
    simp
  have hconst : ∀ x ∈ (split_period ([5, 5, 5, 5, 1, 9, 3, 7] : List ℝ)).1,
      ∀ y ∈ (split_period ([5, 5, 5, 5, 1, 9, 3, 7] : List ℝ)).1, x = y := by
    intro x hx y hy
    rw [hs] at hx hy
    simp at hx hy
    rw [hx, hy]
  exact ⟨hne, hconst, compare_period_volatility_constant_first_half _ hne hconst⟩

/-- Claim C4: whenever `compare_period_volatility` succeeds, the returned
record holds exactly the first- and second-half volatilities, their
difference, and that difference divided by the first-half volatility times
100. -/
theorem compare_period_volatility_fields (self : List ℝ) (pc : PeriodComparison)
    (h : compare_period_volatility self = .ok pc) :
    calculate_volatility self (some (split_period self).1) =
      .ok pc.first_period_volatility ∧
    calculate_volatility self (some (split_period self).2) =
      .ok pc.second_period_volatility ∧
    pc.volatility_change = pc.second_period_volatility - pc.first_period_volatility ∧
    pc.volatility_change_percent =
      pc.volatility_change / pc.first_period_volatility * 100 := by
  rcases h1 : calculate_volatility self (some (split_period self).1) with e1 | v1
  · rw [compare_eq_of_err1 self e1 h1] at h
    simp at h
  · rcases h2 : calculate_volatility self (some (split_period self).2) with e2 | v2
    · rw [compare_eq_of_err2 self v1 e2 h1 h2] at h
      simp at h
    · rw [compare_eq_of_oks self v1 v2 h1 h2] at h
      by_cases hz : v1 = 0
      · rw [if_pos hz] at h
        simp at h
      · rw [if_neg hz] at h
        obtain rfl : pc = ⟨v1, v2, v2 - v1, (v2 - v1) / v1 * 100⟩ := (Except.ok.inj h).symm
        exact ⟨rfl, rfl, rfl, rfl⟩

theorem compare_period_volatility_fields_witness :
    compare_period_volatility ([0, 2, 1, 5] : List ℝ) =
      .ok ⟨1, 2, 2 - 1, (2 - 1) / 1 * 100⟩ ∧
    (calculate_volatility ([0, 2, 1, 5] : List ℝ)
        (some (split_period ([0, 2, 1, 5] : List ℝ)).1) =
      .ok (PeriodComparison.mk 1 2 (2 - 1) ((2 - 1) / 1 * 100)).first_period_volatility ∧
    calculate_volatility ([0, 2, 1, 5] : List ℝ)
        (some (split_period ([0, 2, 1, 5] : List ℝ)).2) =
      .ok (PeriodComparison.mk 1 2 (2 - 1) ((2 - 1) / 1 * 100)).second_period_volatility ∧
    (PeriodComparison.mk 1 2 (2 - 1) ((2 - 1) / 1 * 100)).volatility_change =
      (PeriodComparison.mk 1 2 (2 - 1) ((2 - 1) / 1 * 100)).second_period_volatility -
        (PeriodComparison.mk 1 2 (2 - 1) ((2 - 1) / 1 * 100)).first_period_volatility ∧
    (PeriodComparison.mk 1 2 (2 - 1) ((2 - 1) / 1 * 100)).volatility_change_percent =
      (PeriodComparison.mk 1 2 (2 - 1) ((2 - 1) / 1 * 100)).volatility_change /
        (PeriodComparison.mk 1 2 (2 - 1) ((2 - 1) / 1 * 100)).first_period_volatility *
        100) := by
  have hs : split_period ([0, 2, 1, 5] : List ℝ) = ([0, 2], [1, 5]) := rfl
  have h1 : calculate_volatility ([0, 2, 1, 5] : List ℝ)
      (some (split_period ([0, 2, 1, 5] : List ℝ)).1) = .ok 1 := by
    rw [hs]
    rw [vol_some_eq _ _ (by simp)]
    have harg : ((([0, 2] : List ℝ).map
        (fun x => (x - ([0, 2] : List ℝ).sum / ((([0, 2] : List ℝ).length : ℕ) : ℝ)) ^ 2)).sum /
          ((([0, 2] : List ℝ).length : ℕ) : ℝ)) = 1 := by
      norm_num
    rw [harg, Real.sqrt_one]
  have h2 : calculate_volatility ([0, 2, 1, 5] : List ℝ)
      (some (split_period ([0, 2, 1, 5] : List ℝ)).2) = .ok 2 := by
    rw [hs]
    rw [vol_some_eq _ _ (by simp)]
    have harg : ((([1, 5] : List ℝ).map
        (fun x => (x - ([1, 5] : List ℝ).sum / ((([1, 5] : List ℝ).length : ℕ) : ℝ)) ^ 2)).sum /
          ((([1, 5] : List ℝ).length : ℕ) : ℝ)) = 4 := by
      norm_num
    rw [harg, show (4 : ℝ) = 2 ^ 2 by norm_num, Real.sqrt_sq (by norm_num : (0:ℝ) ≤ 2)]
  have hok : compare_period_volatility ([0, 2, 1, 5] : List ℝ) =
      .ok ⟨1, 2, 2 - 1, (2 - 1) / 1 * 100⟩ := by
    rw [compare_eq_of_oks _ 1 2 h1 h2, if_neg (by norm_num : (1:ℝ) ≠ 0)]
  exact ⟨hok, compare_period_volatility_fields _ _ hok⟩

/-- Claim C6 as stated is refuted at a concrete input: `float('nan')` is
not a real number, yet the constructor accepts a sequence containing it,
because `isinstance(nan, float)` holds; so "fails with InvalidInputError
iff the input is empty or contains an element that is not a real number"
is false on the code. -/
theorem init_real_number_iff_counterexample :
    ¬ (∀ ds : List PyVal,
        (∃ msg, init ds = Except.error (PyErr.invalidInputError msg)) ↔
          (ds = [] ∨ ∃ x ∈ ds, isRealNumber x = false)) := by
  intro hall
  have h1 : ∃ msg, init [PyVal.floatVal PyFloat.nan] =
      Except.error (PyErr.invalidInputError msg) :=
    (hall [PyVal.floatVal PyFloat.nan]).mpr
      (Or.inr ⟨PyVal.floatVal PyFloat.nan, by simp, rfl⟩)
  obtain ⟨msg, he⟩ := h1
  rw [init_ok_of_valid _ (by simp) (by
    intro x hx
    simp at hx
    rw [hx]
    rfl)] at he
  simp at he

/-- Claim C6 (amended): construction fails with `invalidInputError` if and
only if the input sequence is empty or contains an element that is not of
a numeric type (Python `int` or `float`, `bool` included as an `int`
subclass; non-finite floats are accepted); on success the input sequence
is stored verbatim. -/
theorem init_validation_spec (ds : List PyVal) :
    ((∃ msg, init ds = Except.error (PyErr.invalidInputError msg)) ↔
      (ds = [] ∨ ∃ x ∈ ds, isNumericType x = false)) ∧
    (∀ l, init ds = Except.ok l → l = ds) :=
  ⟨init_error_iff ds, fun l hl => init_ok_eq ds l hl⟩

theorem init_validation_spec_witness :
    ((∃ msg, init [PyVal.intVal 3] = Except.error (PyErr.invalidInputError msg)) ↔
      ([PyVal.intVal 3] = [] ∨ ∃ x ∈ [PyVal.intVal 3], isNumericType x = false)) ∧
    (∀ l, init [PyVal.intVal 3] = Except.ok l → l = [PyVal.intVal 3]) :=
  init_validation_spec [PyVal.intVal 3]

/-- Claim C9: for every non-empty stored series, `get_summary_statistics`
succeeds and returns mean = sum/n, the volatility of the stored series as
computed by `calculate_volatility`, the minimum and maximum element of the
series, and count = n. -/
theorem get_summary_statistics_spec (self : List ℝ) (h : self ≠ []) :
    ∃ s : SummaryStatistics, get_summary_statistics self = .ok s ∧
      s.mean = self.sum / (self.length : ℝ) ∧
      calculate_volatility self none = .ok s.volatility ∧
      (s.min ∈ self ∧ ∀ x ∈ self, s.min ≤ x) ∧
      (s.max ∈ self ∧ ∀ x ∈ self, x ≤ s.max) ∧
      s.count = self.length := by
  match self, h with
  | x :: xs, _ =>
    obtain ⟨v, hv, _, _⟩ := vol_ok_characterization (x :: xs) (x :: xs) (by simp)
    have hvnone : calculate_volatility (x :: xs) none = .ok v := hv
    refine ⟨⟨(x :: xs).sum / ((x :: xs).length : ℝ), v, xs.foldl min x, xs.foldl max x,
      (x :: xs).length⟩, summary_eq_of_ok x xs v hvnone, rfl, hvnone, ?_, ?_, rfl⟩
    · exact foldl_min_spec xs x
    · exact foldl_max_spec xs x

theorem get_summary_statistics_spec_witness :
    (([1, 2] : List ℝ) ≠ []) ∧
      ∃ s : SummaryStatistics, get_summary_statistics ([1, 2] : List ℝ) = .ok s ∧
        s.mean = ([1, 2] : List ℝ).sum / ((([1, 2] : List ℝ).length : ℕ) : ℝ) ∧
        calculate_volatility ([1, 2] : List ℝ) none = .ok s.volatility ∧
        (s.min ∈ ([1, 2] : List ℝ) ∧ ∀ x ∈ ([1, 2] : List ℝ), s.min ≤ x) ∧
        (s.max ∈ ([1, 2] : List ℝ) ∧ ∀ x ∈ ([1, 2] : List ℝ), x ≤ s.max) ∧
        s.count = ([1, 2] : List ℝ).length :=
  ⟨by simp, get_summary_statistics_spec [1, 2] (by simp)⟩

/-- Claim C10: the constructor's numeric validation accepts any int or
float value, including the booleans (a subtype of int in Python) and the
non-finite floats NaN, +inf and -inf; it raises only for an empty sequence
or for an element that is neither int nor float, so the data-model
invariant that all stored elements are finite real numbers is not
established at construction for non-finite float inputs. -/
theorem init_accepts_numeric_including_nonfinite :
    init [PyVal.boolVal true, PyVal.boolVal false, PyVal.floatVal PyFloat.nan,
        PyVal.floatVal PyFloat.inf, PyVal.floatVal PyFloat.negInf,
        PyVal.intVal 2, PyVal.floatVal (PyFloat.finite 1)] =
      Except.ok [PyVal.boolVal true, PyVal.boolVal false, PyVal.floatVal PyFloat.nan,
        PyVal.floatVal PyFloat.inf, PyVal.floatVal PyFloat.negInf,
        PyVal.intVal 2, PyVal.floatVal (PyFloat.finite 1)] ∧
    (∀ ds : List PyVal,
      (∃ msg, init ds = Except.error (PyErr.invalidInputError msg)) ↔
        (ds = [] ∨ ∃ x ∈ ds, isNumericType x = false)) ∧
    isRealNumber (PyVal.floatVal PyFloat.nan) = false ∧
    isRealNumber (PyVal.floatVal PyFloat.inf) = false ∧
    isRealNumber (PyVal.floatVal PyFloat.negInf) = false :=
  ⟨rfl, init_error_iff, rfl, rfl, rfl⟩

end RiskAnalyzer
